import Mathlib

/-!
Shallow embedding of `src/blink.cpp` (Raspberry Pi Pico LED blinker).

The program is:

  const int LED_PIN = 25;
  int main() {
      gpio_init(LED_PIN);
      gpio_set_dir(LED_PIN, GPIO_OUT);
      while (true) {
          gpio_put(LED_PIN, 1);
          sleep_ms(500);
          gpio_put(LED_PIN, 0);
          sleep_ms(500);
      }
      return 0;
  }

We model it as a deterministic small-step machine: the machine state holds a
program counter (one value per program point), the direction and output level
of every GPIO pin, and the elapsed time in milliseconds (advanced only by
`sleep_ms`, the SDK's blocking delay).  Each step executes one program point
and may emit one observable event (a GPIO call or a sleep).
-/

namespace Blink

/-- GPIO pin direction, as in the Pico SDK (`GPIO_IN` / `GPIO_OUT`). -/
inductive Dir where
  | input : Dir
  | output : Dir
  deriving DecidableEq, Repr

/-- Program points of `main` in `src/blink.cpp`:
`pInit` = line 7 (`gpio_init`), `pSetDir` = line 8 (`gpio_set_dir`),
`pCond` = line 11 (the `while (true)` condition check),
`pPutHigh` = line 12 (`gpio_put(LED_PIN, 1)`), `pSleep1` = line 13,
`pPutLow` = line 14 (`gpio_put(LED_PIN, 0)`), `pSleep2` = line 15,
`pRet` = line 18 (`return 0`), `pEnd` = after `main` returns. -/
inductive PC where
  | pInit : PC
  | pSetDir : PC
  | pCond : PC
  | pPutHigh : PC
  | pSleep1 : PC
  | pPutLow : PC
  | pSleep2 : PC
  | pRet : PC
  | pEnd : PC
  deriving DecidableEq, Repr

/-- Machine state: program counter, per-pin direction (`none` = never
initialized), per-pin output level (`true` = HIGH), and elapsed time (ms). -/
@[ext]
structure MState where
  pc : PC
  dirs : Nat → Option Dir
  levels : Nat → Bool
  time : Nat

/-- Line 3 of `src/blink.cpp`: `const int LED_PIN = 25;`. -/
def LED_PIN : Nat := 25

/-- The loop condition of line 11, the literal `true` in `while (true)`. -/
def loopCond : Bool := true

/-- Modelled from the spec: the Pico SDK's `gpio_init` (its source is not part
of this repository) puts the pin under software control in its reset
configuration, direction input and output level low, before `gpio_set_dir`
configures it as an output (spec section 4.1 `initialize`). -/
def gpio_init (pin : Nat) (s : MState) : MState :=
  { s with
    dirs := fun p => if p = pin then some Dir.input else s.dirs p,
    levels := fun p => if p = pin then false else s.levels p }

/-- Modelled from the spec: the SDK's `gpio_set_dir` sets the pin's direction
and changes nothing else. -/
def gpio_set_dir (pin : Nat) (d : Dir) (s : MState) : MState :=
  { s with dirs := fun p => if p = pin then some d else s.dirs p }

/-- Modelled from the spec: the SDK's `gpio_put` drives the pin's output
level HIGH (`true`) or LOW (`false`) and changes nothing else. -/
def gpio_put (pin : Nat) (b : Bool) (s : MState) : MState :=
  { s with levels := fun p => if p = pin then b else s.levels p }

/-- Modelled from the spec: the SDK's `sleep_ms` blocks the single thread for
the given number of milliseconds; pin state is unchanged while it blocks. -/
def sleep_ms (ms : Nat) (s : MState) : MState :=
  { s with time := s.time + ms }

/-- Observable events of the program: the GPIO calls and the sleeps. -/
inductive Event where
  | evInit (pin : Nat) : Event
  | evSetDir (pin : Nat) (d : Dir) : Event
  | evPut (pin : Nat) (level : Bool) : Event
  | evSleep (ms : Nat) : Event
  deriving DecidableEq, Repr

/-- One small step of `main`: execute the statement at the current program
counter, following `src/blink.cpp` line by line, and emit the observable
event of that statement (`none` for the condition check and past the end).
From `pSleep2` control returns to the loop condition `pCond`; `pCond` moves
into the body when `loopCond` is true and to `return 0` otherwise. -/
def stepE (s : MState) : MState × Option Event :=
  match s.pc with
  | .pInit => ({ gpio_init LED_PIN s with pc := .pSetDir }, some (.evInit LED_PIN))
  | .pSetDir =>
      ({ gpio_set_dir LED_PIN Dir.output s with pc := .pCond },
       some (.evSetDir LED_PIN Dir.output))
  | .pCond => ({ s with pc := if loopCond then .pPutHigh else .pRet }, none)
  | .pPutHigh => ({ gpio_put LED_PIN true s with pc := .pSleep1 }, some (.evPut LED_PIN true))
  | .pSleep1 => ({ sleep_ms 500 s with pc := .pPutLow }, some (.evSleep 500))
  | .pPutLow => ({ gpio_put LED_PIN false s with pc := .pSleep2 }, some (.evPut LED_PIN false))
  | .pSleep2 => ({ sleep_ms 500 s with pc := .pCond }, some (.evSleep 500))
  | .pRet => ({ s with pc := .pEnd }, none)
  | .pEnd => (s, none)

/-- The state transformer of one step. -/
def stepM (s : MState) : MState := (stepE s).1

/-- State at power-on entry to `main`: no pin initialized, all levels low,
time zero. -/
def initialState : MState :=
  { pc := .pInit, dirs := fun _ => none, levels := fun _ => false, time := 0 }

/-- The state after `n` small steps of the program. -/
def stateAt : Nat → MState
  | 0 => initialState
  | n + 1 => stepM (stateAt n)

/-- The event emitted by step `n` (the step taken from `stateAt n`). -/
def emit (n : Nat) : Option Event := (stepE (stateAt n)).2

/-- Elapsed time (ms) when step `n` begins; only sleeps advance it, so the
sleep step `n` occupies the real-time interval `[timeAt n, timeAt (n+1))`. -/
def timeAt (n : Nat) : Nat := (stateAt n).time

/-- The event pattern of one loop iteration (steps `2+5k .. 6+5k`): condition
check (no event), HIGH write, 500 ms sleep, LOW write, 500 ms sleep. -/
def cycleEvent : Nat → Option Event
  | 0 => none
  | 1 => some (.evPut LED_PIN true)
  | 2 => some (.evSleep 500)
  | 3 => some (.evPut LED_PIN false)
  | _ => some (.evSleep 500)

/-- Whether an emitted event is a pin-state write (`gpio_put`). -/
def isPutEv : Option Event → Bool
  | some (.evPut _ _) => true
  | _ => false

/-- Index of the step executing the `j`-th sleep: sleeps are steps `4 + 5k`
(the HIGH dwell of iteration `k`) and `6 + 5k` (the LOW dwell). -/
def sleepStepIndex (j : Nat) : Nat := 4 + 5 * (j / 2) + 2 * (j % 2)

/-- The level of `LED_PIN` at real time `t` ms after entry to `main`: the
level held during the sleep step in progress at time `t` (the instantaneous
steps at time `t` itself have completed).  The theorem `levelAtTime_spec`
below proves this is the level of any step whose time interval contains `t`. -/
def levelAtTime (t : Nat) : Bool :=
  (stateAt (sleepStepIndex (t / 500))).levels LED_PIN

/-- LED pin direction map after initialization. -/
def dirsOut : Nat → Option Dir := fun p => if p = LED_PIN then some Dir.output else none

/-- Level map with the LED pin driven HIGH. -/
def lvlOn : Nat → Bool := fun p => if p = LED_PIN then true else false

/-- Level map with every pin low. -/
def lvlOff : Nat → Bool := fun _ => false

/-- The state of a loop-head visit: control at the condition check of
iteration `k`, pin 25 an output driven low, `1000 k` ms elapsed. -/
def iterState (k : Nat) : MState :=
  { pc := .pCond, dirs := dirsOut, levels := lvlOff, time := 1000 * k }

/-- The state at step `2 + 5 k + r` of the run (`r < 5`): phase `r` of loop
iteration `k`.  Proved equal to `stateAt` in `stateAt_decomp` below. -/
def phaseState : Nat → Nat → MState
  | 0, k => { pc := .pCond, dirs := dirsOut, levels := lvlOff, time := 1000 * k }
  | 1, k => { pc := .pPutHigh, dirs := dirsOut, levels := lvlOff, time := 1000 * k }
  | 2, k => { pc := .pSleep1, dirs := dirsOut, levels := lvlOn, time := 1000 * k }
  | 3, k => { pc := .pPutLow, dirs := dirsOut, levels := lvlOn, time := 1000 * k + 500 }
  | _, k => { pc := .pSleep2, dirs := dirsOut, levels := lvlOff, time := 1000 * k + 500 }

/-- The initialization sequence of lines 7-8, `gpio_init` then
`gpio_set_dir(…, GPIO_OUT)` (the spec's `initialize(pin_id)`). -/
def initializePin (pin : Nat) (s : MState) : MState :=
  gpio_set_dir pin Dir.output (gpio_init pin s)

/-- The program's step relation, one rule per program point of
`src/blink.cpp`, mirroring `stepE`.  Used to state determinism: `StepRel`
is the transition relation and `stepM` its (sole) function refinement. -/
inductive StepRel : MState → MState → Prop where
  | doInit : ∀ s, s.pc = .pInit → StepRel s { gpio_init LED_PIN s with pc := .pSetDir }
  | doSetDir : ∀ s, s.pc = .pSetDir →
      StepRel s { gpio_set_dir LED_PIN Dir.output s with pc := .pCond }
  | doCondTrue : ∀ s, s.pc = .pCond → loopCond = true → StepRel s { s with pc := .pPutHigh }
  | doCondFalse : ∀ s, s.pc = .pCond → loopCond = false → StepRel s { s with pc := .pRet }
  | doPutHigh : ∀ s, s.pc = .pPutHigh → StepRel s { gpio_put LED_PIN true s with pc := .pSleep1 }
  | doSleep1 : ∀ s, s.pc = .pSleep1 → StepRel s { sleep_ms 500 s with pc := .pPutLow }
  | doPutLow : ∀ s, s.pc = .pPutLow → StepRel s { gpio_put LED_PIN false s with pc := .pSleep2 }
  | doSleep2 : ∀ s, s.pc = .pSleep2 → StepRel s { sleep_ms 500 s with pc := .pCond }
  | doRet : ∀ s, s.pc = .pRet → StepRel s { s with pc := .pEnd }
  | doEnd : ∀ s, s.pc = .pEnd → StepRel s s

/-- A run of the program: starts at the power-on state and follows the step
relation forever. -/
def Run (r : Nat → MState) : Prop :=
  r 0 = initialState ∧ ∀ n, StepRel (r n) (r (n + 1))

/-- Unfolding one step of the run. -/
theorem stateAt_succ (n : Nat) : stateAt (n + 1) = stepM (stateAt n) := rfl

/-- Unfolding five steps of the run (one whole loop iteration). -/
theorem stateAt_add_five (n : Nat) :
    stateAt (n + 5) = stepM (stepM (stepM (stepM (stepM (stateAt n))))) := rfl

/-- Executing one loop iteration from a loop-head state reaches the next
loop-head state: the condition check, the HIGH write, 500 ms of sleep, the
LOW write and 500 ms of sleep leave the pin low again, 1000 ms later. -/
theorem stepM_iter (k : Nat) :
    stepM (stepM (stepM (stepM (stepM (iterState k))))) = iterState (k + 1) := by
  refine MState.ext rfl rfl ?_ ?_
  · funext p
    show (if p = LED_PIN then false else if p = LED_PIN then true else lvlOff p) = lvlOff p
    by_cases h : p = LED_PIN <;> simp [h, lvlOff]
  · show 1000 * k + 500 + 500 = 1000 * (k + 1)
    ring

/-- The state at the `k`-th visit of the loop condition (step `2 + 5 k`). -/
theorem stateAt_loopHead (k : Nat) : stateAt (2 + 5 * k) = iterState k := by
  induction k with
  | zero =>
    refine MState.ext rfl ?_ ?_ rfl
    · funext p
      show (if p = LED_PIN then some Dir.output else
          if p = LED_PIN then some Dir.input else none) = dirsOut p
      by_cases h : p = LED_PIN <;> simp [h, dirsOut]
    · funext p
      show (if p = LED_PIN then false else false) = lvlOff p
      by_cases h : p = LED_PIN <;> simp [h, lvlOff]
  | succ k ih =>
    have e : 2 + 5 * (k + 1) = (2 + 5 * k) + 5 := by ring
    rw [e, stateAt_add_five, ih, stepM_iter]

/-- The state just before the HIGH write of iteration `k` (step `3 + 5 k`). -/
theorem stateAt_putHigh (k : Nat) :
    stateAt (3 + 5 * k) =
      { pc := .pPutHigh, dirs := dirsOut, levels := lvlOff, time := 1000 * k } := by
  have e : 3 + 5 * k = (2 + 5 * k) + 1 := by ring
  rw [e, stateAt_succ, stateAt_loopHead]
  rfl

/-- The state during the HIGH dwell of iteration `k` (step `4 + 5 k`): the
pin is HIGH from time `1000 k` on. -/
theorem stateAt_sleepHigh (k : Nat) :
    stateAt (4 + 5 * k) =
      { pc := .pSleep1, dirs := dirsOut, levels := lvlOn, time := 1000 * k } := by
  have e : 4 + 5 * k = (3 + 5 * k) + 1 := by ring
  rw [e, stateAt_succ, stateAt_putHigh]
  refine MState.ext rfl rfl ?_ rfl
  funext p
  show (if p = LED_PIN then true else lvlOff p) = lvlOn p
  by_cases h : p = LED_PIN <;> simp [h, lvlOn, lvlOff]

/-- The state just before the LOW write of iteration `k` (step `5 + 5 k`),
500 ms into the iteration. -/
theorem stateAt_putLow (k : Nat) :
    stateAt (5 + 5 * k) =
      { pc := .pPutLow, dirs := dirsOut, levels := lvlOn, time := 1000 * k + 500 } := by
  have e : 5 + 5 * k = (4 + 5 * k) + 1 := by ring
  rw [e, stateAt_succ, stateAt_sleepHigh]
  rfl

/-- The state during the LOW dwell of iteration `k` (step `6 + 5 k`): the
pin is LOW from time `1000 k + 500` on. -/
theorem stateAt_sleepLow (k : Nat) :
    stateAt (6 + 5 * k) =
      { pc := .pSleep2, dirs := dirsOut, levels := lvlOff, time := 1000 * k + 500 } := by
  have e : 6 + 5 * k = (5 + 5 * k) + 1 := by ring
  rw [e, stateAt_succ, stateAt_putLow]
  refine MState.ext rfl rfl ?_ rfl
  funext p
  show (if p = LED_PIN then false else lvlOn p) = lvlOff p
  by_cases h : p = LED_PIN <;> simp [h, lvlOn, lvlOff]

/-- Closed form of the whole run: from step 2 on, the state is the phase
`(n - 2) % 5` of loop iteration `(n - 2) / 5`. -/
theorem stateAt_decomp (n : Nat) (h : 2 ≤ n) :
    stateAt n = phaseState ((n - 2) % 5) ((n - 2) / 5) := by
  obtain ⟨m, rfl⟩ : ∃ m, n = 2 + m := ⟨n - 2, by omega⟩
  have hm2 : 2 + m - 2 = m := by omega
  rw [hm2]
  have h5 : m % 5 = 0 ∨ m % 5 = 1 ∨ m % 5 = 2 ∨ m % 5 = 3 ∨ m % 5 = 4 := by omega
  rcases h5 with h5 | h5 | h5 | h5 | h5 <;> rw [h5]
  · have e : 2 + m = 2 + 5 * (m / 5) := by omega
    rw [e, stateAt_loopHead]
    rfl
  · have e : 2 + m = 3 + 5 * (m / 5) := by omega
    rw [e, stateAt_putHigh]
    rfl
  · have e : 2 + m = 4 + 5 * (m / 5) := by omega
    rw [e, stateAt_sleepHigh]
    rfl
  · have e : 2 + m = 5 + 5 * (m / 5) := by omega
    rw [e, stateAt_putLow]
    rfl
  · have e : 2 + m = 6 + 5 * (m / 5) := by omega
    rw [e, stateAt_sleepLow]
    rfl

/-- Characterization of the pin level over real time: HIGH during the first
half of every 1000 ms period, LOW during the second half. -/
theorem levelAtTime_eq (t : Nat) : levelAtTime t = decide (t % 1000 < 500) := by
  unfold levelAtTime sleepStepIndex
  by_cases hp : t / 500 % 2 = 0
  · have h1 : 4 + 5 * (t / 500 / 2) + 2 * (t / 500 % 2) = 4 + 5 * (t / 500 / 2) := by omega
    rw [h1, stateAt_sleepHigh]
    have h2 : t % 1000 < 500 := by omega
    simp [lvlOn, h2]
  · have h1 : 4 + 5 * (t / 500 / 2) + 2 * (t / 500 % 2) = 6 + 5 * (t / 500 / 2) := by omega
    rw [h1, stateAt_sleepLow]
    have h2 : ¬ t % 1000 < 500 := by omega
    simp [lvlOff, h2]

/-- Soundness of `levelAtTime`: whenever step `n` occupies a real-time
interval containing `t` (so step `n` is the sleep in progress at time `t`),
the pin level of that state is `levelAtTime t`.  So `levelAtTime` really is
the pin level the machine holds at time `t`. -/
theorem levelAtTime_spec (t n : Nat) (h1 : timeAt n ≤ t) (h2 : t < timeAt (n + 1)) :
    (stateAt n).levels LED_PIN = levelAtTime t := by
  rcases Nat.lt_or_ge n 2 with hlt | hge
  · exfalso
    have e0 : timeAt (0 + 1) = 0 := rfl
    have e1 : timeAt (1 + 1) = 0 := rfl
    interval_cases n <;> omega
  · obtain ⟨m, rfl⟩ : ∃ m, n = 2 + m := ⟨n - 2, by omega⟩
    have h5 : m % 5 = 0 ∨ m % 5 = 1 ∨ m % 5 = 2 ∨ m % 5 = 3 ∨ m % 5 = 4 := by omega
    rcases h5 with h5 | h5 | h5 | h5 | h5
    · exfalso
      have e : 2 + m = 2 + 5 * (m / 5) := by omega
      have e' : 2 + m + 1 = 3 + 5 * (m / 5) := by omega
      rw [e] at h1
      rw [e'] at h2
      have t1 : timeAt (2 + 5 * (m / 5)) = 1000 * (m / 5) := by
        rw [timeAt, stateAt_loopHead]; rfl
      have t2 : timeAt (3 + 5 * (m / 5)) = 1000 * (m / 5) := by
        rw [timeAt, stateAt_putHigh]
      omega
    · exfalso
      have e : 2 + m = 3 + 5 * (m / 5) := by omega
      have e' : 2 + m + 1 = 4 + 5 * (m / 5) := by omega
      rw [e] at h1
      rw [e'] at h2
      have t1 : timeAt (3 + 5 * (m / 5)) = 1000 * (m / 5) := by
        rw [timeAt, stateAt_putHigh]
      have t2 : timeAt (4 + 5 * (m / 5)) = 1000 * (m / 5) := by
        rw [timeAt, stateAt_sleepHigh]
      omega
    · have e : 2 + m = 4 + 5 * (m / 5) := by omega
      have e' : 2 + m + 1 = 5 + 5 * (m / 5) := by omega
      rw [e] at h1 ⊢
      rw [e'] at h2
      have t1 : timeAt (4 + 5 * (m / 5)) = 1000 * (m / 5) := by
        rw [timeAt, stateAt_sleepHigh]
      have t2 : timeAt (5 + 5 * (m / 5)) = 1000 * (m / 5) + 500 := by
        rw [timeAt, stateAt_putLow]
      rw [stateAt_sleepHigh, levelAtTime_eq]
      have h3 : t % 1000 < 500 := by omega
      simp [lvlOn, h3]
    · exfalso
      have e : 2 + m = 5 + 5 * (m / 5) := by omega
      have e' : 2 + m + 1 = 6 + 5 * (m / 5) := by omega
      rw [e] at h1
      rw [e'] at h2
      have t1 : timeAt (5 + 5 * (m / 5)) = 1000 * (m / 5) + 500 := by
        rw [timeAt, stateAt_putLow]
      have t2 : timeAt (6 + 5 * (m / 5)) = 1000 * (m / 5) + 500 := by
        rw [timeAt, stateAt_sleepLow]
      omega
    · have e : 2 + m = 6 + 5 * (m / 5) := by omega
      have e' : 2 + m + 1 = 2 + 5 * (m / 5 + 1) := by omega
      rw [e] at h1 ⊢
      rw [e'] at h2
      have t1 : timeAt (6 + 5 * (m / 5)) = 1000 * (m / 5) + 500 := by
        rw [timeAt, stateAt_sleepLow]
      have t2 : timeAt (2 + 5 * (m / 5 + 1)) = 1000 * (m / 5 + 1) := by
        rw [timeAt, stateAt_loopHead]; rfl
      rw [stateAt_sleepLow, levelAtTime_eq]
      have h3 : ¬ t % 1000 < 500 := by omega
      simp [lvlOff, h3]

/-- The program counter only ever visits the seven program points of the
initialization and the loop; `return 0` and the end of `main` never occur. -/
theorem pc_reachable (n : Nat) :
    (stateAt n).pc = PC.pInit ∨ (stateAt n).pc = PC.pSetDir ∨ (stateAt n).pc = PC.pCond ∨
    (stateAt n).pc = PC.pPutHigh ∨ (stateAt n).pc = PC.pSleep1 ∨
    (stateAt n).pc = PC.pPutLow ∨ (stateAt n).pc = PC.pSleep2 := by
  rcases Nat.lt_or_ge n 2 with hlt | hge
  · interval_cases n
    · exact Or.inl rfl
    · exact Or.inr (Or.inl rfl)
  · rw [stateAt_decomp n hge]
    have h5 : (n - 2) % 5 = 0 ∨ (n - 2) % 5 = 1 ∨ (n - 2) % 5 = 2 ∨ (n - 2) % 5 = 3 ∨
        (n - 2) % 5 = 4 := by omega
    rcases h5 with h5 | h5 | h5 | h5 | h5 <;> rw [h5] <;> simp [phaseState]

/-- A single step touches no pin other than `LED_PIN`. -/
theorem stepM_frame (s : MState) (p : Nat) (h : p ≠ LED_PIN) :
    (stepM s).dirs p = s.dirs p ∧ (stepM s).levels p = s.levels p := by
  cases hpc : s.pc <;>
    simp [stepM, stepE, hpc, gpio_init, gpio_set_dir, gpio_put, sleep_ms, h]

/-- Pins other than `LED_PIN` keep their power-on configuration forever. -/
theorem frame_all (n p : Nat) (h : p ≠ LED_PIN) :
    (stateAt n).dirs p = none ∧ (stateAt n).levels p = false := by
  induction n with
  | zero => exact ⟨rfl, rfl⟩
  | succ n ih =>
    have hf := stepM_frame (stateAt n) p h
    rw [stateAt_succ]
    exact ⟨hf.1.trans ih.1, hf.2.trans ih.2⟩

/-- Every emitted event is one of the six events of `src/blink.cpp`, all of
them on `LED_PIN`. -/
theorem emit_cases (n : Nat) :
    emit n = none ∨ emit n = some (Event.evInit LED_PIN) ∨
    emit n = some (Event.evSetDir LED_PIN Dir.output) ∨
    emit n = some (Event.evPut LED_PIN true) ∨ emit n = some (Event.evPut LED_PIN false) ∨
    emit n = some (Event.evSleep 500) := by
  cases hpc : (stateAt n).pc <;> simp [emit, stepE, hpc]

/-- The step relation has at most one successor per state. -/
theorem stepRel_det {s s1 s2 : MState} (a : StepRel s s1) (b : StepRel s s2) : s1 = s2 := by
  cases a <;> cases b <;> simp_all [loopCond]

/-- The step function realizes the step relation. -/
theorem stepRel_stepM (s : MState) : StepRel s (stepM s) := by
  cases hpc : s.pc
  case pInit =>
    have e : stepM s = { gpio_init LED_PIN s with pc := .pSetDir } := by
      simp [stepM, stepE, hpc]
    rw [e]
    exact .doInit s hpc
  case pSetDir =>
    have e : stepM s = { gpio_set_dir LED_PIN Dir.output s with pc := .pCond } := by
      simp [stepM, stepE, hpc]
    rw [e]
    exact .doSetDir s hpc
  case pCond =>
    have e : stepM s = { s with pc := .pPutHigh } := by
      simp [stepM, stepE, hpc, loopCond]
    rw [e]
    exact .doCondTrue s hpc rfl
  case pPutHigh =>
    have e : stepM s = { gpio_put LED_PIN true s with pc := .pSleep1 } := by
      simp [stepM, stepE, hpc]
    rw [e]
    exact .doPutHigh s hpc
  case pSleep1 =>
    have e : stepM s = { sleep_ms 500 s with pc := .pPutLow } := by
      simp [stepM, stepE, hpc]
    rw [e]
    exact .doSleep1 s hpc
  case pPutLow =>
    have e : stepM s = { gpio_put LED_PIN false s with pc := .pSleep2 } := by
      simp [stepM, stepE, hpc]
    rw [e]
    exact .doPutLow s hpc
  case pSleep2 =>
    have e : stepM s = { sleep_ms 500 s with pc := .pCond } := by
      simp [stepM, stepE, hpc]
    rw [e]
    exact .doSleep2 s hpc
  case pRet =>
    have e : stepM s = { s with pc := .pEnd } := by
      simp [stepM, stepE, hpc]
    rw [e]
    exact .doRet s hpc
  case pEnd =>
    have e : stepM s = s := by
      simp [stepM, stepE, hpc]
    rw [e]
    exact .doEnd s hpc

/-- The canonical execution `stateAt` is a run of the step relation. -/
theorem run_stateAt : Run stateAt :=
  ⟨rfl, fun n => stepRel_stepM (stateAt n)⟩

/-- C1: after the two initialization steps, the program's behavior is the
loop alone: the event of every step `n ≥ 2` is given by the position of `n`
in the 5-step iteration cycle — condition check (nothing emitted), set pin
25 HIGH, block 500 ms, set pin 25 LOW, block 500 ms — so every iteration
performs exactly these four effects in this order and no other pin write
ever occurs between them. -/
theorem loop_iteration_events (n : Nat) (h : 2 ≤ n) :
    emit n = cycleEvent ((n - 2) % 5) := by
  unfold emit
  rw [stateAt_decomp n h]
  have h5 : (n - 2) % 5 = 0 ∨ (n - 2) % 5 = 1 ∨ (n - 2) % 5 = 2 ∨ (n - 2) % 5 = 3 ∨
      (n - 2) % 5 = 4 := by omega
  rcases h5 with h5 | h5 | h5 | h5 | h5 <;> rw [h5] <;> rfl

/-- Witness for C1: step 7 (the condition check of the second iteration)
emits what the cycle prescribes. -/
theorem loop_iteration_events_witness : emit 7 = cycleEvent ((7 - 2) % 5) :=
  loop_iteration_events 7 (by norm_num)

/-- C2: the first three steps (`gpio_init`, `gpio_set_dir`, the condition
check) contain no pin-state write, the pin is still LOW when the first write
happens, and that first write (step 3) drives pin 25 HIGH. -/
theorem first_write_is_high :
    isPutEv (emit 0) = false ∧ isPutEv (emit 1) = false ∧ isPutEv (emit 2) = false ∧
      emit 3 = some (Event.evPut LED_PIN true) ∧ (stateAt 3).levels LED_PIN = false :=
  ⟨rfl, rfl, rfl, rfl, rfl⟩

/-- C3: the program never terminates: no state of the run is at `return 0`
(`pRet`) or past the end of `main` (`pEnd`), and after every step the loop
body (its HIGH write, `pPutHigh`) is executed again at some later step. -/
theorem never_terminates :
    (∀ n, ((stateAt n).pc = PC.pRet ∨ (stateAt n).pc = PC.pEnd) → False) ∧
      (∀ n, ∃ m, n < m ∧ (stateAt m).pc = PC.pPutHigh) := by
  constructor
  · intro n hn
    rcases pc_reachable n with h | h | h | h | h | h | h <;>
      rcases hn with h2 | h2 <;> rw [h] at h2 <;> exact absurd h2 (by decide)
  · intro n
    refine ⟨3 + 5 * (n + 1), by omega, ?_⟩
    rw [stateAt_putHigh]

/-- C4: with half_period = 500 ms the pin level is HIGH throughout the first
500 ms of every 1000 ms period and LOW throughout the second 500 ms, the
trace is periodic with period 1000 ms (1 Hz), and the transitions fall
exactly on the half-period boundaries — a fixed 50 percent duty cycle. -/
theorem fixed_period_and_duty (k : Nat) :
    (∀ t, 1000 * k ≤ t → t < 1000 * k + 500 → levelAtTime t = true) ∧
      (∀ t, 1000 * k + 500 ≤ t → t < 1000 * k + 1000 → levelAtTime t = false) ∧
      (∀ t, levelAtTime (t + 1000) = levelAtTime t) ∧
      levelAtTime (1000 * k) = true ∧ levelAtTime (1000 * k + 500) = false ∧
      levelAtTime (1000 * k + 1000) = true := by
  refine ⟨?_, ?_, ?_, ?_, ?_, ?_⟩
  · intro t ha hb
    rw [levelAtTime_eq]
    have hx : t % 1000 < 500 := by omega
    simp [hx]
  · intro t ha hb
    rw [levelAtTime_eq]
    have hx : ¬ t % 1000 < 500 := by omega
    simp [hx]
  · intro t
    rw [levelAtTime_eq, levelAtTime_eq]
    have e : (t + 1000) % 1000 = t % 1000 := by omega
    rw [e]
  · rw [levelAtTime_eq]
    have hx : 1000 * k % 1000 < 500 := by omega
    simp [hx]
  · rw [levelAtTime_eq]
    have hx : ¬ (1000 * k + 500) % 1000 < 500 := by omega
    simp [hx]
  · rw [levelAtTime_eq]
    have hx : (1000 * k + 1000) % 1000 < 500 := by omega
    simp [hx]

/-- C5: invariant after initialization (from step 2 on): pin 25's direction
is output and never changes, and its level is always exactly one of HIGH or
LOW. -/
theorem pin_direction_invariant (n : Nat) (h : 2 ≤ n) :
    (stateAt n).dirs LED_PIN = some Dir.output ∧
      ((stateAt n).levels LED_PIN = true ∨ (stateAt n).levels LED_PIN = false) := by
  constructor
  · rw [stateAt_decomp n h]
    have h5 : (n - 2) % 5 = 0 ∨ (n - 2) % 5 = 1 ∨ (n - 2) % 5 = 2 ∨ (n - 2) % 5 = 3 ∨
        (n - 2) % 5 = 4 := by omega
    rcases h5 with h5 | h5 | h5 | h5 | h5 <;> rw [h5] <;> rfl
  · cases hb : (stateAt n).levels LED_PIN
    · exact Or.inr rfl
    · exact Or.inl rfl

/-- Witness for C5: the invariant at step 6 (during the first LOW dwell). -/
theorem pin_direction_invariant_witness :
    (stateAt 6).dirs LED_PIN = some Dir.output ∧
      ((stateAt 6).levels LED_PIN = true ∨ (stateAt 6).levels LED_PIN = false) :=
  pin_direction_invariant 6 (by norm_num)

/-- C6: every time window of length at least 1000 ms (2 half-periods) after
initialization contains a HIGH-to-LOW transition and a LOW-to-HIGH
transition of the pin-state trace. -/
theorem window_contains_transitions (a L : Nat) (hL : 1000 ≤ L) :
    (∃ t, a ≤ t ∧ t + 1 ≤ a + L ∧ levelAtTime t = true ∧ levelAtTime (t + 1) = false) ∧
      (∃ t, a ≤ t ∧ t + 1 ≤ a + L ∧ levelAtTime t = false ∧ levelAtTime (t + 1) = true) := by
  constructor
  · refine ⟨a + (1000 + 499 - a % 1000) % 1000, by omega, by omega, ?_, ?_⟩
    · rw [levelAtTime_eq]
      simp only [decide_eq_true_eq]
      omega
    · rw [levelAtTime_eq]
      simp only [decide_eq_false_iff_not]
      omega
  · refine ⟨a + (1000 + 999 - a % 1000) % 1000, by omega, by omega, ?_, ?_⟩
    · rw [levelAtTime_eq]
      simp only [decide_eq_false_iff_not]
      omega
    · rw [levelAtTime_eq]
      simp only [decide_eq_true_eq]
      omega

/-- Witness for C6: both transitions occur in the window from 0 to 1000 ms. -/
theorem window_contains_transitions_witness :
    (∃ t, 0 ≤ t ∧ t + 1 ≤ 0 + 1000 ∧ levelAtTime t = true ∧ levelAtTime (t + 1) = false) ∧
      (∃ t, 0 ≤ t ∧ t + 1 ≤ 0 + 1000 ∧ levelAtTime t = false ∧ levelAtTime (t + 1) = true) :=
  window_contains_transitions 0 1000 (by norm_num)

/-- C7: sampling every 500 ms gives HIGH at 0 ms, LOW at 500 ms, HIGH at
1000 ms, LOW at 1500 ms, alternating through at least five full periods
(samples 0 to 10), and between consecutive samples the level is constant,
so no transition is missed and none is extra. -/
theorem concrete_sample_trace :
    (∀ j, j ≤ 10 → levelAtTime (500 * j) = decide (j % 2 = 0)) ∧
      (∀ j t, t < 500 → levelAtTime (500 * j + t) = levelAtTime (500 * j)) := by
  constructor
  · intro j hj
    rw [levelAtTime_eq]
    by_cases hp : j % 2 = 0
    · have h1 : 500 * j % 1000 < 500 := by omega
      simp [h1, hp]
    · have h1 : ¬ 500 * j % 1000 < 500 := by omega
      simp [h1, hp]
  · intro j t ht
    rw [levelAtTime_eq, levelAtTime_eq]
    by_cases hp : 500 * j % 1000 < 500
    · have h1 : (500 * j + t) % 1000 < 500 := by omega
      simp [h1, hp]
    · have h1 : ¬ (500 * j + t) % 1000 < 500 := by omega
      simp [h1, hp]

/-- C8: the initialization sequence (`gpio_init` then `gpio_set_dir` to
output) is idempotent: running it twice from any state gives exactly the
state of running it once, that state has the pin configured as output, and
the program's state at the loop head is this initialization applied to the
power-on state. -/
theorem initialize_idempotent (pin : Nat) (s : MState) :
    initializePin pin (initializePin pin s) = initializePin pin s ∧
      (initializePin pin s).dirs pin = some Dir.output ∧
      stateAt 2 = { initializePin LED_PIN initialState with pc := PC.pCond } := by
  refine ⟨?_, ?_, rfl⟩
  · refine MState.ext rfl ?_ ?_ rfl
    · funext p
      show (if p = pin then some Dir.output else
          if p = pin then some Dir.input else (initializePin pin s).dirs p) =
        (initializePin pin s).dirs p
      by_cases hp : p = pin <;> simp [hp, initializePin, gpio_set_dir, gpio_init]
    · funext p
      show (if p = pin then false else (initializePin pin s).levels p) =
        (initializePin pin s).levels p
      by_cases hp : p = pin <;> simp [hp, initializePin, gpio_set_dir, gpio_init]
  · simp [initializePin, gpio_set_dir, gpio_init]

/-- C9: the program is deterministic: it reads no input, the step relation
of the code has a unique successor from every state, so any two runs agree
at every step, both in machine state and in the emitted event. -/
theorem run_deterministic (r1 r2 : Nat → MState) (h1 : Run r1) (h2 : Run r2) (n : Nat) :
    r1 n = r2 n ∧ (stepE (r1 n)).2 = (stepE (r2 n)).2 := by
  have key : ∀ m, r1 m = r2 m := by
    intro m
    induction m with
    | zero => rw [h1.1, h2.1]
    | succ m ih =>
      have a := h1.2 m
      have b := h2.2 m
      rw [ih] at a
      exact stepRel_det a b
  exact ⟨key n, by rw [key n]⟩

/-- Witness for C9: the canonical execution compared with itself at step 5. -/
theorem run_deterministic_witness :
    stateAt 5 = stateAt 5 ∧ (stepE (stateAt 5)).2 = (stepE (stateAt 5)).2 :=
  run_deterministic stateAt stateAt run_stateAt run_stateAt 5

/-- C10: pin 25 is the only GPIO line the program touches: at every step,
every other pin keeps its power-on direction and level, and no emitted
event initializes, configures or writes any other pin. -/
theorem frame_other_pins (n p : Nat) (h : p ≠ LED_PIN) :
    (stateAt n).dirs p = initialState.dirs p ∧
      (stateAt n).levels p = initialState.levels p ∧
      (∀ b, emit n ≠ some (Event.evPut p b)) ∧
      emit n ≠ some (Event.evInit p) ∧
      (∀ d, emit n ≠ some (Event.evSetDir p d)) := by
  refine ⟨(frame_all n p h).1, (frame_all n p h).2, ?_, ?_, ?_⟩
  · intro b hb
    rcases emit_cases n with e | e | e | e | e | e <;> rw [e] at hb
    · exact Option.noConfusion hb
    · exact Event.noConfusion (Option.some.inj hb)
    · exact Event.noConfusion (Option.some.inj hb)
    · exact h (Event.evPut.inj (Option.some.inj hb)).1.symm
    · exact h (Event.evPut.inj (Option.some.inj hb)).1.symm
    · exact Event.noConfusion (Option.some.inj hb)
  · intro hb
    rcases emit_cases n with e | e | e | e | e | e <;> rw [e] at hb
    · exact Option.noConfusion hb
    · exact h (Event.evInit.inj (Option.some.inj hb)).symm
    · exact Event.noConfusion (Option.some.inj hb)
    · exact Event.noConfusion (Option.some.inj hb)
    · exact Event.noConfusion (Option.some.inj hb)
    · exact Event.noConfusion (Option.some.inj hb)
  · intro d hb
    rcases emit_cases n with e | e | e | e | e | e <;> rw [e] at hb
    · exact Option.noConfusion hb
    · exact Event.noConfusion (Option.some.inj hb)
    · exact h (Event.evSetDir.inj (Option.some.inj hb)).1.symm
    · exact Event.noConfusion (Option.some.inj hb)
    · exact Event.noConfusion (Option.some.inj hb)
    · exact Event.noConfusion (Option.some.inj hb)

/-- Witness for C10: at step 4, pin 3 is untouched and unreferenced. -/
theorem frame_other_pins_witness :
    (stateAt 4).dirs 3 = initialState.dirs 3 ∧
      (stateAt 4).levels 3 = initialState.levels 3 ∧
      (∀ b, emit 4 ≠ some (Event.evPut 3 b)) ∧
      emit 4 ≠ some (Event.evInit 3) ∧
      (∀ d, emit 4 ≠ some (Event.evSetDir 3 d)) :=
  frame_other_pins 4 3 (by decide)

end Blink
